import Mathlib

/-!
Verification of the myfontsns-backend request-validation and structured-error-response
pipeline against its specification.

Part A embeds `src/util/errors/internal-server-error.ts`: the `isSerializable`
round-trip check, the `InternalServerError` class and its `toJSON` serializer.
JavaScript fault values are embedded as the inductive `JSValue`; the host
`JSON.stringify` / `JSON.parse` primitives are embedded as total Lean functions
returning `Except` (an `Except.error` result models a thrown exception, and an
`Except.ok none` result of stringification models the JavaScript `undefined`
result).

Part B embeds `src/controllers/userController.ts`: the create / update / destroy
endpoints, their validation schemas, and the transactional store access.  The
store and validator library modules of the repository are not among the sources,
so they are modelled from the spec where indicated.
-/

/-- A JavaScript runtime value handed to `new InternalServerError(error)`.
`circular` stands for a value whose JSON serialization throws a TypeError
(circular structure); `bigint` likewise throws in `JSON.stringify`;
`errorObj name msg` is an `Error` instance (carrying `name` and `message`). -/
inductive JSValue where
  | null
  | undefined
  | bool (b : Bool)
  | num (n : Int)
  | str (s : String)
  | arr (xs : List JSValue)
  | obj (fields : List (String × JSValue))
  | errorObj (name msg : String)
  | circular (inner : JSValue)
  | bigint (n : Int)

/-- Escape one character for a JSON string literal (quote and backslash,
as produced by `JSON.stringify` for the values in scope here). -/
def escapeChar (c : Char) : String :=
  if c == '"' then "\\\""
  else if c == '\\' then "\\\\"
  else String.mk [c]

/-- Quote a string as a JSON string literal. -/
def jsonQuote (s : String) : String :=
  "\"" ++ String.join (s.toList.map escapeChar) ++ "\""

/-- Join rendered JSON fragments with commas, as `JSON.stringify` does. -/
def joinComma : List String → String
  | [] => ""
  | [s] => s
  | s :: rest => s ++ "," ++ joinComma rest

def lbrace : Char := Char.ofNat 123

def rbrace : Char := Char.ofNat 125

mutual
/-- Embedding of the host `JSON.stringify`: `Except.error` models a thrown
TypeError, `Except.ok none` models the `undefined` result (top-level
`undefined`), `Except.ok (some s)` the produced JSON text.  An `Error`
instance has no enumerable own properties, so it stringifies to `"\x7b\x7d"`. -/
def jsonStringifyV : JSValue → Except String (Option String)
  | JSValue.undefined => Except.ok none
  | JSValue.null => Except.ok (some "null")
  | JSValue.bool b => Except.ok (some (if b then "true" else "false"))
  | JSValue.num n => Except.ok (some (toString n))
  | JSValue.str s => Except.ok (some (jsonQuote s))
  | JSValue.errorObj _ _ => Except.ok (some (String.mk [lbrace, rbrace]))
  | JSValue.circular _ => Except.error "TypeError: Converting circular structure to JSON"
  | JSValue.bigint _ => Except.error "TypeError: Do not know how to serialize a BigInt"
  | JSValue.arr xs =>
    match jsonStringifyElems xs with
    | Except.ok parts => Except.ok (some ("[" ++ joinComma parts ++ "]"))
    | Except.error m => Except.error m
  | JSValue.obj fs =>
    match jsonStringifyFields fs with
    | Except.ok parts =>
      Except.ok (some (String.mk [lbrace] ++ joinComma parts ++ String.mk [rbrace]))
    | Except.error m => Except.error m

/-- Array elements: an `undefined` element renders as `null`. -/
def jsonStringifyElems : List JSValue → Except String (List String)
  | [] => Except.ok []
  | v :: vs =>
    match jsonStringifyV v with
    | Except.error m => Except.error m
    | Except.ok s? =>
      match jsonStringifyElems vs with
      | Except.error m => Except.error m
      | Except.ok rest => Except.ok ((s?.getD "null") :: rest)

/-- Object fields: a field whose value stringifies to `undefined` is omitted. -/
def jsonStringifyFields : List (String × JSValue) → Except String (List String)
  | [] => Except.ok []
  | (k, v) :: fs =>
    match jsonStringifyV v with
    | Except.error m => Except.error m
    | Except.ok none => jsonStringifyFields fs
    | Except.ok (some s) =>
      match jsonStringifyFields fs with
      | Except.error m => Except.error m
      | Except.ok rest => Except.ok ((jsonQuote k ++ ":" ++ s) :: rest)
end

/-- Skip JSON whitespace. -/
def skipWs : List Char → List Char
  | c :: cs => if c == ' ' || c == '\n' || c == '\t' || c == '\r' then skipWs cs else c :: cs
  | [] => []

/-- Expect the given literal characters as a prefix of the input. -/
def parseLit : List Char → List Char → Option (List Char)
  | [], cs => some cs
  | l :: ls, c :: cs => if c == l then parseLit ls cs else none
  | _ :: _, [] => none

/-- Parse the remainder of a JSON string literal (after the opening quote). -/
def parseStringRest : List Char → Option (String × List Char)
  | [] => none
  | c :: cs =>
    if c == '"' then some ("", cs)
    else if c == '\\' then
      match cs with
      | [] => none
      | d :: ds =>
        match parseStringRest ds with
        | none => none
        | some (s, rest) => some (String.mk [d] ++ s, rest)
    else
      match parseStringRest cs with
      | none => none
      | some (s, rest) => some (String.mk [c] ++ s, rest)

def digitsToNat (ds : List Char) : Nat :=
  ds.foldl (fun a c => a * 10 + (c.toNat - 48)) 0

/-- Parse a natural number (one or more digits). -/
def parseNatNum (cs : List Char) : Option (Nat × List Char) :=
  let digits := cs.takeWhile Char.isDigit
  if digits.isEmpty then none
  else some (digitsToNat digits, cs.dropWhile Char.isDigit)

/-- Parse a JSON number (optional leading minus; integral, as produced by the
embedded stringifier). -/
def parseNumber (cs : List Char) : Option (JSValue × List Char) :=
  match cs with
  | c :: rest =>
    if c == '-' then
      match parseNatNum rest with
      | none => none
      | some (n, after) => some (JSValue.num (-(n : Int)), after)
    else
      match parseNatNum cs with
      | none => none
      | some (n, after) => some (JSValue.num (n : Int), after)
  | [] => none

mutual
/-- Embedding of the host `JSON.parse` value grammar, with explicit fuel
(structural recursion on the fuel); `none` models a thrown SyntaxError. -/
def parseVal : Nat → List Char → Option (JSValue × List Char)
  | 0, _ => none
  | Nat.succ fuel, cs =>
    match skipWs cs with
    | [] => none
    | c :: rest =>
      if c == 'n' then
        match parseLit ['u', 'l', 'l'] rest with
        | some r => some (JSValue.null, r)
        | none => none
      else if c == 't' then
        match parseLit ['r', 'u', 'e'] rest with
        | some r => some (JSValue.bool true, r)
        | none => none
      else if c == 'f' then
        match parseLit ['a', 'l', 's', 'e'] rest with
        | some r => some (JSValue.bool false, r)
        | none => none
      else if c == '"' then
        match parseStringRest rest with
        | some (s, r) => some (JSValue.str s, r)
        | none => none
      else if c == '-' || c.isDigit then parseNumber (c :: rest)
      else if c == '[' then
        match skipWs rest with
        | d :: more =>
          if d == ']' then some (JSValue.arr [], more)
          else
            match parseArrItems fuel (d :: more) with
            | some (vs, r) => some (JSValue.arr vs, r)
            | none => none
        | [] => none
      else if c == lbrace then
        match skipWs rest with
        | d :: more =>
          if d == rbrace then some (JSValue.obj [], more)
          else
            match parseObjItems fuel (d :: more) with
            | some (kvs, r) => some (JSValue.obj kvs, r)
            | none => none
        | [] => none
      else none

/-- One or more array elements, consuming the closing bracket. -/
def parseArrItems : Nat → List Char → Option (List JSValue × List Char)
  | 0, _ => none
  | Nat.succ fuel, cs =>
    match parseVal fuel cs with
    | none => none
    | some (v, after) =>
      match skipWs after with
      | c :: more =>
        if c == ',' then
          match parseArrItems fuel more with
          | none => none
          | some (vs, rest) => some (v :: vs, rest)
        else if c == ']' then some ([v], more)
        else none
      | [] => none

/-- One or more object members, consuming the closing brace. -/
def parseObjItems : Nat → List Char → Option (List (String × JSValue) × List Char)
  | 0, _ => none
  | Nat.succ fuel, cs =>
    match skipWs cs with
    | c :: rest =>
      if c == '"' then
        match parseStringRest rest with
        | none => none
        | some (k, afterKey) =>
          match skipWs afterKey with
          | d :: afterColon =>
            if d == ':' then
              match parseVal fuel afterColon with
              | none => none
              | some (v, after) =>
                match skipWs after with
                | e :: more =>
                  if e == ',' then
                    match parseObjItems fuel more with
                    | none => none
                    | some (kvs, rest2) => some ((k, v) :: kvs, rest2)
                  else if e == rbrace then some ([(k, v)], more)
                  else none
                | [] => none
            else none
          | [] => none
      else none
    | [] => none
end

/-- Embedding of `JSON.parse`: parse a complete JSON text. -/
def jsonParse (s : String) : Except String JSValue :=
  match parseVal (s.length + 1) s.toList with
  | some (v, rest) =>
    if (skipWs rest).isEmpty then Except.ok v
    else Except.error "SyntaxError: Unexpected token in JSON"
  | none => Except.error "SyntaxError: Unexpected token in JSON"

/-- `isSerializable` from internal-server-error.ts: run
`JSON.parse(JSON.stringify(value))` inside a try/catch and report whether it
succeeded.  When `JSON.stringify` returns `undefined`, JavaScript coerces the
argument of `JSON.parse` to the string `"undefined"`, which fails to parse. -/
def isSerializable (v : JSValue) : Bool :=
  match jsonStringifyV v with
  | Except.error _ => false
  | Except.ok none =>
    match jsonParse "undefined" with
    | Except.ok _ => true
    | Except.error _ => false
  | Except.ok (some s) =>
    match jsonParse s with
    | Except.ok _ => true
    | Except.error _ => false

/-- The fixed generic operator-facing detail assigned by the constructor. -/
def genericDetail : String :=
  "The server encountered an internal error or misconfiguration and was unable to complete your request.\n    Please contact the server administrator and inform them of the time the error occurred and anything you might have done that may have caused the error.\n    More information about this error may be available in the server error log."

/-- The `InternalServerError` instance state: `name`, `message` (inherited from
`Error`; `super()` is called with no argument, leaving it empty), `statusCode`,
the wrapped fault `error`, and the mutable `detail` property (`none` models a
JavaScript `undefined` value assigned to it). -/
structure InternalServerError where
  name : String
  message : String
  statusCode : Nat
  error : JSValue
  detail : Option String

/-- `new InternalServerError(error)`. -/
def InternalServerError.construct (e : JSValue) : InternalServerError :=
  { name := "InternalServerError"
    message := ""
    statusCode := 500
    error := e
    detail := some genericDetail }

/-- The object literal returned by `InternalServerError.toJSON` (its `status`
field holds the result of `getReasonPhrase`, a string). -/
structure ISEEntry where
  status : String
  title : String
  detail : String
deriving DecidableEq

/-- `getReasonPhrase` from the http-status-codes package (the subset of status
codes used by the repository). -/
def getReasonPhrase (code : Nat) : String :=
  if code == 200 then "OK"
  else if code == 201 then "Created"
  else if code == 404 then "Not Found"
  else if code == 422 then "Unprocessable Entity"
  else if code == 500 then "Internal Server Error"
  else "Unknown Status"

/-- `this.error instanceof Error`. -/
def isJSError : JSValue → Bool
  | JSValue.errorObj _ _ => true
  | _ => false

/-- `error.toString()` for an `Error` instance: `"Name: message"`, or just
`"Name"` when the message is empty. -/
def jsErrorString : JSValue → String
  | JSValue.errorObj n m => if m == "" then n else n ++ ": " ++ m
  | _ => ""

/-- The record returned by `toJSON` together with the (mutated) instance:
`status: getReasonPhrase(this.statusCode), title: this.name, detail: this.message`. -/
def serializeEntry (s : InternalServerError) : InternalServerError × ISEEntry :=
  (s, { status := getReasonPhrase s.statusCode, title := s.name, detail := s.message })

/-- `InternalServerError.toJSON`: assigns a computed string to `this.detail`
(the fault's string form for `Error` instances, else its JSON serialization
when `isSerializable` holds, else leaves the constructor's generic message),
then returns the entry built by `serializeEntry`.  The result also carries the
mutated instance, since `toJSON` writes to `this.detail`.  `Except.error`
models an exception escaping `toJSON` (the second `JSON.stringify` call is not
guarded by a try/catch in the source). -/
def InternalServerError.toJSON (self : InternalServerError) :
    Except String (InternalServerError × ISEEntry) :=
  if isJSError self.error then
    Except.ok (serializeEntry { self with detail := some (jsErrorString self.error) })
  else if isSerializable self.error then
    match jsonStringifyV self.error with
    | Except.ok s? => Except.ok (serializeEntry { self with detail := s? })
    | Except.error m => Except.error m
  else
    Except.ok (serializeEntry self)

/-- An errors document wrapping serialized entries. -/
structure ErrorsDoc where
  errors : List ISEEntry

/-- Modelled from the spec: `buildDocument(InternalError, F)` — the
`docWithErrors` builder of lib/json-api/response (not among the sources) wraps
the entry serialized from `new InternalServerError(F)` into an
`errors: [...]` document. -/
def buildInternalErrorDocument (f : JSValue) : Except String ErrorsDoc :=
  match (InternalServerError.construct f).toJSON with
  | Except.ok r => Except.ok { errors := [r.2] }
  | Except.error m => Except.error m

/-! ## Part B: the user controller (src/controllers/userController.ts) -/

/-- A request body as seen by the validators: the four fields the schemas
reference, each present (`some`) or absent (`none`). -/
structure Payload where
  name : Option String := none
  screenName : Option String := none
  email : Option String := none
  password : Option String := none
deriving DecidableEq

/-- Modelled from the spec: the constraint kinds provided by
lib/express-validator/custom-param-schemas (not among the sources): the
`shouldExist`, `shouldNotExist`, `shouldNotBeEmpty`, `shouldBeEmail`,
`shouldBeStrongPassword` bundles and the `normalizeEmail` sanitizer. -/
inductive Check where
  | exist
  | notExist
  | notEmpty
  | isEmail
  | strongPassword
  | normEmail
deriving DecidableEq

/-- One recorded validation failure: the offending field and its message. -/
structure FieldFailure where
  field : String
  message : String
deriving DecidableEq

/-- Split a character list at the first occurrence of `sep`. -/
def splitOnce (sep : Char) : List Char → Option (List Char × List Char)
  | [] => none
  | c :: cs =>
    if c == sep then some ([], cs)
    else
      match splitOnce sep cs with
      | some (l, r) => some (c :: l, r)
      | none => none

/-- Modelled from the spec: `mustBeEmailShaped` — exactly one `@`, a nonempty
local part, and a nonempty domain containing an inner dot. -/
def isEmailShaped (s : String) : Bool :=
  let cs := s.toList
  (cs.count '@' == 1) &&
    (match splitOnce '@' cs with
     | some (l, d) =>
       !(l.isEmpty) && !(d.isEmpty) && d.contains '.' &&
         (match d with
          | c :: _ => !(c == '.')
          | [] => false) &&
         !(d.getLast? == some '.')
     | none => false)

/-- Modelled from the spec: `mustMeetPasswordStrength` — at least 8 characters
with a lowercase letter, an uppercase letter, a digit and a symbol (the
express-validator `isStrongPassword` defaults). -/
def isStrongPassword (s : String) : Bool :=
  decide (8 ≤ s.length) && s.toList.any Char.isLower && s.toList.any Char.isUpper &&
    s.toList.any Char.isDigit &&
    s.toList.any (fun c => !c.isAlphanum && !c.isWhitespace)

/-- Modelled from the spec: the `normalizeEmail` sanitizer (case normalization). -/
def normalizeEmail (s : String) : String := String.mk (s.toList.map Char.toLower)

/-- The message attached to each failed constraint. -/
def checkMessage : Check → String
  | Check.exist => "must exist"
  | Check.notExist => "must not exist"
  | Check.notEmpty => "must not be empty"
  | Check.isEmail => "must be an email address"
  | Check.strongPassword => "must be a strong password"
  | Check.normEmail => ""

/-- Modelled from the spec: apply one constraint to a field's raw value.
`Except.error` is a blocking failure; `normEmail` is a non-failing sanitizer
that is a safe no-op on absent values. -/
def applyCheck (c : Check) (v : Option String) : Except String (Option String) :=
  match c, v with
  | Check.exist, none => Except.error (checkMessage Check.exist)
  | Check.exist, some s => Except.ok (some s)
  | Check.notExist, none => Except.ok none
  | Check.notExist, some _ => Except.error (checkMessage Check.notExist)
  | Check.notEmpty, none => Except.error (checkMessage Check.notEmpty)
  | Check.notEmpty, some s =>
    if s.isEmpty then Except.error (checkMessage Check.notEmpty) else Except.ok (some s)
  | Check.isEmail, none => Except.error (checkMessage Check.isEmail)
  | Check.isEmail, some s =>
    if isEmailShaped s then Except.ok (some s) else Except.error (checkMessage Check.isEmail)
  | Check.strongPassword, none => Except.error (checkMessage Check.strongPassword)
  | Check.strongPassword, some s =>
    if isStrongPassword s then Except.ok (some s)
    else Except.error (checkMessage Check.strongPassword)
  | Check.normEmail, w => Except.ok (w.map normalizeEmail)

/-- Modelled from the spec: run a field's ordered constraint chain,
short-circuiting within the field at the first blocking failure; sanitizers
only run on values that passed the earlier checks. -/
def runChain (v : Option String) : List Check → Except String (Option String)
  | [] => Except.ok v
  | c :: cs =>
    match applyCheck c v with
    | Except.error m => Except.error m
    | Except.ok w => runChain w cs

/-- Modelled from the spec: one full-schema field — a failing chain yields a
`FieldFailure` and excludes the field from the sanitized output (the
express-validator `matchedData` drops fields with errors). -/
def runFullField (g : String) (v : Option String) (cs : List Check) :
    List FieldFailure × Option String :=
  match runChain v cs with
  | Except.ok w => ([], w)
  | Except.error m => ([{ field := g, message := m }], none)

/-- Modelled from the spec: one partial-schema field — the
`.if(body(g).exists())` guard makes an absent field vacuously valid and
excluded from the sanitized output. -/
def runPartialField (g : String) (v : Option String) (cs : List Check) :
    List FieldFailure × Option String :=
  match v with
  | none => ([], none)
  | some s => runFullField g (some s) cs

/-- The create schema of `UserController.create`: `name` must not exist;
`screenName` must exist and be nonempty; `email` must exist, be nonempty and
email-shaped, and is normalized; `password` must exist, be nonempty and
strong.  All four chains are evaluated (`runAllValidations` runs every chain
and `validationResult` collects every failure), in schema order. -/
def createValidation (p : Payload) : List FieldFailure × Payload :=
  let rn := runFullField "name" p.name [Check.notExist]
  let rs := runFullField "screenName" p.screenName [Check.exist, Check.notEmpty]
  let re := runFullField "email" p.email
    [Check.exist, Check.notEmpty, Check.isEmail, Check.normEmail]
  let rp := runFullField "password" p.password
    [Check.exist, Check.notEmpty, Check.strongPassword]
  (rn.1 ++ rs.1 ++ re.1 ++ rp.1,
   { name := rn.2, screenName := rs.2, email := re.2, password := rp.2 })

/-- The update schema of `UserController.update`: every field optional (guarded
by `.if(body(f).exists())`), but if present it must pass its chain; the email
sanitizer runs after the email validators. -/
def updateValidation (p : Payload) : List FieldFailure × Payload :=
  let rn := runPartialField "name" p.name [Check.notEmpty]
  let rs := runPartialField "screenName" p.screenName [Check.notEmpty]
  let re := runPartialField "email" p.email [Check.notEmpty, Check.isEmail, Check.normEmail]
  let rp := runPartialField "password" p.password [Check.notEmpty, Check.strongPassword]
  (rn.1 ++ rs.1 ++ re.1 ++ rp.1,
   { name := rn.2, screenName := rs.2, email := re.2, password := rp.2 })

/-- A stored user row (the User model's persisted attributes). -/
structure UserRecord where
  id : String
  name : String
  screenName : String
  email : String
  password : String
deriving DecidableEq

/-- Modelled from the spec: `user.convert()` — the public representation of a
resource (the password is not exposed). -/
structure UserRepr where
  id : String
  name : String
  screenName : String
  email : String
deriving DecidableEq

def UserRecord.convert (u : UserRecord) : UserRepr :=
  { id := u.id, name := u.name, screenName := u.screenName, email := u.email }

/-- An entry of the wire-format error document (`status` numeric per the spec's
Error Document Entry shape; `source` carries the offending field if any). -/
structure DocEntry where
  status : Nat
  title : String
  detail : String
  source : Option String := none
deriving DecidableEq

/-- Modelled from the spec: `resourceNotFound()` from lib/controller (not among
the sources) — the fixed NotFoundError entry. -/
def resourceNotFound : DocEntry :=
  { status := 404, title := "Not Found", detail := "The requested resource could not be found." }

/-- Modelled from the spec: the error formatter deduplicates repeated failures
for the same field and reason while keeping schema order (first occurrences). -/
def dedupFailuresGo (seen : List FieldFailure) : List FieldFailure → List FieldFailure
  | [] => []
  | f :: fs =>
    if f ∈ seen then dedupFailuresGo seen fs
    else f :: dedupFailuresGo (f :: seen) fs

def dedupFailures (l : List FieldFailure) : List FieldFailure := dedupFailuresGo [] l

/-- Modelled from the spec: `validationError` renders each formatted failure as
a 422 "Unprocessable Entity" entry whose `source` names the offending field. -/
def validationError (fs : List FieldFailure) : List DocEntry :=
  (dedupFailures fs).map fun f =>
    { status := 422, title := "Unprocessable Entity", detail := f.message,
      source := some f.field }

/-- Modelled from the spec: `internalServerError(error)` from lib/controller —
constructs `new InternalServerError(error)` and serializes it for the error
document.  The `Except.error` arm is unreachable (`toJSON` is total, see
`toJSON_total`). -/
def internalServerError (f : JSValue) : ISEEntry :=
  match (InternalServerError.construct f).toJSON with
  | Except.ok r => r.2
  | Except.error _ => { status := "", title := "", detail := "" }

/-- A response body: a single-resource data document, an error document of
formatted entries, or an error document wrapping a serialized
`InternalServerError` entry. -/
inductive ResponseBody where
  | dataOne (r : UserRepr)
  | errorsDoc (es : List DocEntry)
  | iseDoc (e : ISEEntry)
deriving DecidableEq

/-- The HTTP response produced by an endpoint. -/
structure Response where
  status : Nat
  body : ResponseBody
deriving DecidableEq

/-- The events an endpoint issues against the store, in order.  `txBegin` and
`txEnd` delimit one `db.transaction` invocation; `createRow`, `updateRow` and
`destroyRow` are the store writes; `findByPk` and `reloadRow` are reads. -/
inductive StoreEvent where
  | txBegin
  | txEnd
  | findByPk (id : String)
  | findAll
  | createRow (u : UserRecord)
  | updateRow (id : String)
  | destroyRow (id : String)
  | reloadRow (id : String)
deriving DecidableEq

def isWriteEvent : StoreEvent → Bool
  | StoreEvent.createRow _ => true
  | StoreEvent.updateRow _ => true
  | StoreEvent.destroyRow _ => true
  | _ => false

def isTxBegin : StoreEvent → Bool
  | StoreEvent.txBegin => true
  | _ => false

def txBeginCount (tr : List StoreEvent) : Nat := (tr.filter isTxBegin).length

def writeCount (tr : List StoreEvent) : Nat := (tr.filter isWriteEvent).length

/-- Scan the trace keeping the open-transaction depth; a write at depth zero
is a write outside any transaction. -/
def writesInsideTxGo : Nat → List StoreEvent → Bool
  | _, [] => true
  | depth, e :: tr =>
    match e with
    | StoreEvent.txBegin => writesInsideTxGo (depth + 1) tr
    | StoreEvent.txEnd => writesInsideTxGo (depth - 1) tr
    | e =>
      if isWriteEvent e && depth == 0 then false
      else writesInsideTxGo depth tr

def writesInsideTx (tr : List StoreEvent) : Bool := writesInsideTxGo 0 tr

/-- The transactional-write discipline of one request trace: every store write
happens inside a transaction, at most one transaction is opened, at most one
write is issued, and a write is issued exactly when a transaction is opened. -/
def singleTransactionalWrite (tr : List StoreEvent) : Bool :=
  writesInsideTx tr && decide (txBeginCount tr ≤ 1) && decide (writeCount tr ≤ 1) &&
    (decide (writeCount tr = 1) == decide (txBeginCount tr = 1))

/-- Modelled from the spec: the external Resource Store reached through
`db` and the `User` model (lib/db and models are not among the sources).
`users` is the table, `freshId` the identifier the store assigns on create,
`setter` the store-side normalization the model's setters apply on an update
(the primary key is never rewritten), and the fault fields inject a store
fault into the corresponding operation (`none` = the operation succeeds). -/
structure DBState where
  users : List UserRecord
  freshId : String
  setter : UserRecord → UserRecord
  findFault : Option JSValue := none
  createFault : Option JSValue := none
  updateFault : Option JSValue := none
  destroyFault : Option JSValue := none

/-- The faker environment: the pseudo-random state behind
`faker.random.alphaNumeric`. -/
structure Env where
  seed : Nat

/-- The alphanumeric alphabet position `m` (26 lowercase letters then 10
digits). -/
def alphaNumCharAt (m : Nat) : Char :=
  if m < 26 then Char.ofNat (97 + m) else Char.ofNat (48 + (m - 26))

def alphaNumChar (k : Nat) : Char := alphaNumCharAt (k % 36)

/-- Modelled from the spec: `faker.random.alphaNumeric(len)` — `len` characters
drawn from the alphanumeric alphabet, driven by the seed. -/
def fakerAlphaNumeric (seed len : Nat) : String :=
  String.mk ((List.range len).map fun i => alphaNumChar (seed + 31 * i))

/-- `User.findByPk` on the table: first row with the given id. -/
def findUser (users : List UserRecord) (id : String) : Option UserRecord :=
  users.find? fun u => u.id == id

/-- `user.update(validatedUserData)`: merge the sanitized present fields into
the row. -/
def mergeUpdate (u : UserRecord) (s : Payload) : UserRecord :=
  { u with
    name := s.name.getD u.name
    screenName := s.screenName.getD u.screenName
    email := s.email.getD u.email
    password := s.password.getD u.password }

/-- The row the store persists for an update: the merged row passed through
the model's setters, with the primary key preserved. -/
def updatedUser (db : DBState) (u : UserRecord) (p : Payload) : UserRecord :=
  { db.setter (mergeUpdate u (updateValidation p).2) with id := u.id }

/-- Persist an updated row in the table. -/
def storeUpdateUsers (users : List UserRecord) (uid : String) (newU : UserRecord) :
    List UserRecord :=
  users.map fun x => if x.id == uid then newU else x

/-- The row `User.create` persists: the server-generated name and the
validated `screenName`, `email` and `password` from `matchedData` (present on
the success path; `getD` covers the JavaScript `undefined` otherwise). -/
def createdUser (env : Env) (db : DBState) (p : Payload) : UserRecord :=
  { id := db.freshId
    name := fakerAlphaNumeric env.seed 15
    screenName := ((createValidation p).2.screenName).getD ""
    email := ((createValidation p).2.email).getD ""
    password := ((createValidation p).2.password).getD "" }

/-- `UserController.create`: validate the body against the full schema (422 on
any failure), then perform the single `User.create` inside one
`db.transaction` (500 on a store fault), answering 201 with the created
representation. -/
def UserController.create (env : Env) (db : DBState) (p : Payload) :
    Response × DBState × List StoreEvent :=
  if (createValidation p).1 = [] then
    match db.createFault with
    | some f =>
      ({ status := 500, body := ResponseBody.iseDoc (internalServerError f) }, db,
        [StoreEvent.txBegin, StoreEvent.createRow (createdUser env db p), StoreEvent.txEnd])
    | none =>
      ({ status := 201, body := ResponseBody.dataOne (createdUser env db p).convert },
        { db with users := db.users ++ [createdUser env db p] },
        [StoreEvent.txBegin, StoreEvent.createRow (createdUser env db p), StoreEvent.txEnd])
  else
    ({ status := 422, body := ResponseBody.errorsDoc (validationError (createValidation p).1) },
      db, [])

/-- `UserController.update`: look the user up (500 on a store fault, 404 when
absent), validate the body against the partial schema (422 on any failure),
perform the single `user.update` inside one `db.transaction` (500 on a store
fault), then re-read the persisted row (`user.reload()`) and answer 200 with
its representation.  The reload miss arm is unreachable when the row was just
written. -/
def UserController.update (db : DBState) (uid : String) (p : Payload) :
    Response × DBState × List StoreEvent :=
  match db.findFault with
  | some f =>
    ({ status := 500, body := ResponseBody.iseDoc (internalServerError f) }, db,
      [StoreEvent.findByPk uid])
  | none =>
    match findUser db.users uid with
    | none =>
      ({ status := 404, body := ResponseBody.errorsDoc [resourceNotFound] }, db,
        [StoreEvent.findByPk uid])
    | some user =>
      if (updateValidation p).1 = [] then
        match db.updateFault with
        | some f =>
          ({ status := 500, body := ResponseBody.iseDoc (internalServerError f) }, db,
            [StoreEvent.findByPk uid, StoreEvent.txBegin, StoreEvent.updateRow uid,
              StoreEvent.txEnd])
        | none =>
          match findUser (storeUpdateUsers db.users uid (updatedUser db user p)) uid with
          | some fresh =>
            ({ status := 200, body := ResponseBody.dataOne fresh.convert },
              { db with users := storeUpdateUsers db.users uid (updatedUser db user p) },
              [StoreEvent.findByPk uid, StoreEvent.txBegin, StoreEvent.updateRow uid,
                StoreEvent.txEnd, StoreEvent.reloadRow uid])
          | none =>
            ({ status := 500,
               body := ResponseBody.iseDoc (internalServerError (JSValue.str "reload failed")) },
              { db with users := storeUpdateUsers db.users uid (updatedUser db user p) },
              [StoreEvent.findByPk uid, StoreEvent.txBegin, StoreEvent.updateRow uid,
                StoreEvent.txEnd, StoreEvent.reloadRow uid])
      else
        ({ status := 422,
           body := ResponseBody.errorsDoc (validationError (updateValidation p).1) },
          db, [StoreEvent.findByPk uid])

/-- `UserController.destroy`: look the user up (500 on a store fault, 404 when
absent), perform the single `user.destroy` inside one `db.transaction` (500 on
a store fault), and answer 200 with the in-memory representation. -/
def UserController.destroy (db : DBState) (uid : String) :
    Response × DBState × List StoreEvent :=
  match db.findFault with
  | some f =>
    ({ status := 500, body := ResponseBody.iseDoc (internalServerError f) }, db,
      [StoreEvent.findByPk uid])
  | none =>
    match findUser db.users uid with
    | none =>
      ({ status := 404, body := ResponseBody.errorsDoc [resourceNotFound] }, db,
        [StoreEvent.findByPk uid])
    | some user =>
      match db.destroyFault with
      | some f =>
        ({ status := 500, body := ResponseBody.iseDoc (internalServerError f) }, db,
          [StoreEvent.findByPk uid, StoreEvent.txBegin, StoreEvent.destroyRow uid,
            StoreEvent.txEnd])
      | none =>
        ({ status := 200, body := ResponseBody.dataOne user.convert },
          { db with users := db.users.filter fun x => !(x.id == uid) },
          [StoreEvent.findByPk uid, StoreEvent.txBegin, StoreEvent.destroyRow uid,
            StoreEvent.txEnd])

/-- The error entries carried by a response (empty for data documents and for
serialized internal-error documents). -/
def responseErrors (r : Response) : List DocEntry :=
  match r.body with
  | ResponseBody.errorsDoc es => es
  | _ => []

/-- Concrete witness environment. -/
def envW : Env := { seed := 7 }

/-- Concrete witness store: empty table, no injected faults, identity setters. -/
def dbW : DBState := { users := [], freshId := "id1", setter := fun u => u }

/-- Concrete witness payload: entirely empty body. -/
def pEmptyW : Payload := {}

/-- Concrete witness payload: a partial body whose other fields are absent. -/
def pPartialW : Payload := { screenName := some "ok" }

/-- Concrete witness payload: a fully valid create body. -/
def pValidW : Payload :=
  { screenName := some "user", email := some "a@b.com", password := some "Str0ng!pw" }

/-- Concrete witness row. -/
def uW : UserRecord :=
  { id := "1", name := "abc", screenName := "sn", email := "a@b.com", password := "pw" }

/-- Concrete witness store holding one row. -/
def dbUW : DBState := { users := [uW], freshId := "id2", setter := fun u => u }

/-- The concrete result of serializing `new InternalServerError(1)`. -/
def iseR1 : InternalServerError × ISEEntry :=
  ({ name := "InternalServerError", message := "", statusCode := 500,
     error := JSValue.num 1, detail := some "1" },
   { status := "Internal Server Error", title := "InternalServerError", detail := "" })

/-- The concrete result of serializing `new InternalServerError("boom")`. -/
def iseR2 : InternalServerError × ISEEntry :=
  ({ name := "InternalServerError", message := "", statusCode := 500,
     error := JSValue.str "boom", detail := some "\"boom\"" },
   { status := "Internal Server Error", title := "InternalServerError", detail := "" })

/-! ## Theorems: the InternalServerError serializer (Part A) -/

/-- `JSON.parse` applied to the coerced string `"undefined"` throws. -/
theorem parse_undefined_fails :
    jsonParse "undefined" = Except.error "SyntaxError: Unexpected token in JSON" := rfl

/-- If the round-trip check succeeded, the (unguarded) re-stringification in
`toJSON` succeeds and produces a string. -/
theorem stringify_ok_of_isSerializable {v : JSValue} (h : isSerializable v = true) :
    ∃ s, jsonStringifyV v = Except.ok (some s) := by
  cases hs : jsonStringifyV v with
  | error m =>
    have hfalse : isSerializable v = false := by
      unfold isSerializable; rw [hs]
    rw [hfalse] at h; cases h
  | ok s? =>
    cases s? with
    | none =>
      have hfalse : isSerializable v = false := by
        unfold isSerializable; rw [hs]; rfl
      rw [hfalse] at h; cases h
    | some s => exact ⟨s, rfl⟩

/-- `toJSON` never throws: every branch, including the re-stringification
guarded by `isSerializable`, yields a result. -/
theorem toJSON_total (e : InternalServerError) : ∃ r, e.toJSON = Except.ok r := by
  unfold InternalServerError.toJSON
  by_cases h1 : isJSError e.error
  · rw [if_pos h1]; exact ⟨_, rfl⟩
  · rw [if_neg h1]
    by_cases h2 : isSerializable e.error
    · rw [if_pos h2]
      obtain ⟨s, hs⟩ := stringify_ok_of_isSerializable h2
      rw [hs]
      exact ⟨_, rfl⟩
    · rw [if_neg h2]; exact ⟨_, rfl⟩

/-- Whatever the wrapped fault, the entry returned by `toJSON` is built from
the instance's `statusCode`, `name` and `message` only. -/
theorem toJSON_ok_entry (e : InternalServerError) (r : InternalServerError × ISEEntry)
    (h : e.toJSON = Except.ok r) :
    r.2 = { status := getReasonPhrase e.statusCode, title := e.name, detail := e.message } := by
  unfold InternalServerError.toJSON at h
  by_cases h1 : isJSError e.error
  · rw [if_pos h1] at h
    injection h with h
    rw [← h]
    rfl
  · rw [if_neg h1] at h
    by_cases h2 : isSerializable e.error
    · rw [if_pos h2] at h
      obtain ⟨s, hs⟩ := stringify_ok_of_isSerializable h2
      rw [hs] at h
      injection h with h
      rw [← h]
      rfl
    · rw [if_neg h2] at h
      injection h with h
      rw [← h]
      rfl

/-- C3: for every fault value F, including non-serializable and circular ones,
building the InternalError document from F returns a document and never
raises — the `isSerializable` guard traps every serialization failure before
the unguarded stringification runs. -/
theorem buildInternalErrorDocument_total (f : JSValue) :
    ∃ d, buildInternalErrorDocument f = Except.ok d := by
  obtain ⟨r, hr⟩ := toJSON_total (InternalServerError.construct f)
  exact ⟨{ errors := [r.2] }, by unfold buildInternalErrorDocument; rw [hr]⟩

/-- C9: for any two fault values F1 and F2, the `detail` fields of the entries
produced by serializing `InternalServerError(F1)` and `InternalServerError(F2)`
are equal — the returned detail is `this.message`, which the constructor never
sets, independent of the computed `detail` property, so no fault content ever
appears in the serialized entry. -/
theorem toJSON_detail_constant (f1 f2 : JSValue) (r1 r2 : InternalServerError × ISEEntry)
    (h1 : (InternalServerError.construct f1).toJSON = Except.ok r1)
    (h2 : (InternalServerError.construct f2).toJSON = Except.ok r2) :
    r1.2.detail = r2.2.detail := by
  rw [toJSON_ok_entry _ _ h1, toJSON_ok_entry _ _ h2]
  rfl

/-- C9 witness: two concrete faults (a number and a string) produce entries
with equal detail. -/
theorem toJSON_detail_constant_witness : iseR1.2.detail = iseR2.2.detail :=
  toJSON_detail_constant (JSValue.num 1) (JSValue.str "boom") iseR1 iseR2 rfl rfl

/-- C2 (counterexample): at the concrete fault `null` the serialized entry's
`status` field is the reason-phrase string `getReasonPhrase(500)`, not a
numeric 500, and its `title` is the error name `"InternalServerError"`, not
`"Internal Server Error"`. -/
theorem toJSON_status_not_numeric_counterexample :
    (InternalServerError.construct JSValue.null).toJSON =
      Except.ok ({ name := "InternalServerError", message := "", statusCode := 500,
                   error := JSValue.null, detail := some "null" },
                 { status := "Internal Server Error", title := "InternalServerError",
                   detail := "" }) ∧
    ("Internal Server Error" : String) ≠ "500" ∧
    ("InternalServerError" : String) ≠ "Internal Server Error" :=
  ⟨rfl, by decide, by decide⟩

/-- C2 (amended): for every fault value F, the entry produced for the
InternalError has `status` equal to the reason-phrase string
`"Internal Server Error"` (the rendering of `getReasonPhrase(500)`) and
`title` equal to the error name `"InternalServerError"`. -/
theorem toJSON_status_title (f : JSValue) (r : InternalServerError × ISEEntry)
    (h : (InternalServerError.construct f).toJSON = Except.ok r) :
    r.2.status = "Internal Server Error" ∧ r.2.title = "InternalServerError" := by
  rw [toJSON_ok_entry _ _ h]
  exact ⟨rfl, rfl⟩

/-- C2 witness: the amended statement at the concrete fault `1`. -/
theorem toJSON_status_title_witness :
    iseR1.2.status = "Internal Server Error" ∧ iseR1.2.title = "InternalServerError" :=
  toJSON_status_title (JSValue.num 1) iseR1 rfl

/-- C1 (code bug): at the serializable fault `42` the code computes the JSON
serialization `"42"` into the `detail` property, but the returned entry's
`detail` is `this.message`, which `super()` leaves empty — so the computed
detail required by the claim never reaches the document entry. -/
theorem toJSON_discards_computed_detail :
    (InternalServerError.construct (JSValue.num 42)).toJSON =
      Except.ok ({ name := "InternalServerError", message := "", statusCode := 500,
                   error := JSValue.num 42, detail := some "42" },
                 { status := "Internal Server Error", title := "InternalServerError",
                   detail := "" }) ∧
    ("42" : String) ≠ "" :=
  ⟨rfl, by decide⟩

/-! ## Theorems: the user controller (Part B) -/

/-- Deduplication never drops an occurring failure. -/
theorem mem_dedupFailuresGo (e : FieldFailure) :
    ∀ (l seen : List FieldFailure), e ∈ l → e ∉ seen → e ∈ dedupFailuresGo seen l := by
  intro l
  induction l with
  | nil => intro seen h _; cases h
  | cons f fs ih =>
    intro seen hl hs
    rcases List.mem_cons.mp hl with rfl | hl2
    · have hf : e ∉ seen := hs
      simp only [dedupFailuresGo, if_neg hf]
      exact List.mem_cons_self _ _
    · by_cases hf : f ∈ seen
      · simp only [dedupFailuresGo, if_pos hf]
        exact ih seen hl2 hs
      · simp only [dedupFailuresGo, if_neg hf]
        by_cases hef : e = f
        · subst hef; exact List.mem_cons_self _ _
        · refine List.mem_cons_of_mem _ (ih (f :: seen) hl2 ?_)
          intro hc
          rcases List.mem_cons.mp hc with h | h
          · exact hef h
          · exact hs h

theorem mem_dedupFailures {e : FieldFailure} {l : List FieldFailure} (h : e ∈ l) :
    e ∈ dedupFailures l :=
  mem_dedupFailuresGo e l [] h (List.not_mem_nil e)

/-- Every failure of a field yields a rendered 422 entry whose source names
that field. -/
theorem mem_validationError {fl : FieldFailure} {fs : List FieldFailure} (h : fl ∈ fs) :
    ({ status := 422, title := "Unprocessable Entity", detail := fl.message,
       source := some fl.field } : DocEntry) ∈ validationError fs := by
  unfold validationError
  exact List.mem_map_of_mem _ (mem_dedupFailures h)

/-- A required field left absent fails its `mustExist` check with exactly one
failure, and is excluded from the sanitized output. -/
theorem runFullField_exist_absent (g : String) (cs : List Check) :
    runFullField g none (Check.exist :: cs) =
      ([{ field := g, message := checkMessage Check.exist }], none) := rfl

/-- Failures reported for a full-schema field carry that field's name. -/
theorem runFullField_field_eq (g : String) (v : Option String) (cs : List Check) :
    ∀ e ∈ (runFullField g v cs).1, e.field = g := by
  intro e he
  unfold runFullField at he
  cases h : runChain v cs with
  | ok w => rw [h] at he; cases he
  | error m =>
    rw [h] at he
    rw [List.mem_singleton] at he
    rw [he]

/-- An absent partial-schema field is vacuously valid and excluded from the
sanitized output. -/
theorem runPartialField_absent (g : String) (cs : List Check) :
    runPartialField g none cs = ([], none) := rfl

/-- Failures reported for a partial-schema field carry that field's name. -/
theorem runPartialField_field_eq (g : String) (v : Option String) (cs : List Check) :
    ∀ e ∈ (runPartialField g v cs).1, e.field = g := by
  intro e he
  cases v with
  | none => rw [runPartialField_absent] at he; cases he
  | some s =>
    unfold runPartialField at he
    exact runFullField_field_eq g (some s) cs e he

/-- Unfold one table row of the lookup. -/
theorem findUser_cons (x : UserRecord) (t : List UserRecord) (uid : String) :
    findUser (x :: t) uid = if x.id == uid then some x else findUser t uid := by
  cases hx : x.id == uid <;> simp [findUser, List.find?_cons, hx]

/-- Re-reading the table after persisting an updated row finds that row. -/
theorem findUser_storeUpdate (users : List UserRecord) (uid : String) (u newU : UserRecord)
    (hfind : findUser users uid = some u) (hid : newU.id = uid) :
    findUser (storeUpdateUsers users uid newU) uid = some newU := by
  have hnew : (newU.id == uid) = true := beq_iff_eq.mpr hid
  induction users with
  | nil => exact absurd hfind (by simp [findUser])
  | cons x t ih =>
    have e1 : storeUpdateUsers (x :: t) uid newU =
        (if x.id == uid then newU else x) :: storeUpdateUsers t uid newU := rfl
    rw [e1]
    by_cases hx : (x.id == uid) = true
    · rw [if_pos hx, findUser_cons, if_pos hnew]
    · rw [if_neg hx, findUser_cons, if_neg hx]
      rw [findUser_cons, if_neg hx] at hfind
      exact ih hfind

/-- Every alphabet position yields an alphanumeric character. -/
theorem alphaNumCharAt_isAlphanum : ∀ m, m < 36 → (alphaNumCharAt m).isAlphanum = true := by
  decide

theorem alphaNumChar_isAlphanum (k : Nat) : (alphaNumChar k).isAlphanum = true :=
  alphaNumCharAt_isAlphanum (k % 36) (Nat.mod_lt k (by decide))

theorem fakerAlphaNumeric_length (seed len : Nat) :
    (fakerAlphaNumeric seed len).length = len := by
  unfold fakerAlphaNumeric
  rw [show ∀ cs : List Char, (String.mk cs).length = cs.length from fun _ => rfl]
  rw [List.length_map, List.length_range]

/-- C4: each of the three mutating endpoints performs its single store write
through exactly one invocation of `db.transaction`; no create/update/destroy
store call is issued outside a transaction. -/
theorem mutations_single_transactional_write (env : Env) (db : DBState) (uid : String)
    (p : Payload) :
    singleTransactionalWrite (UserController.create env db p).2.2 = true ∧
    singleTransactionalWrite (UserController.update db uid p).2.2 = true ∧
    singleTransactionalWrite (UserController.destroy db uid).2.2 = true := by
  refine ⟨?_, ?_, ?_⟩
  · by_cases hv : (createValidation p).1 = []
    · cases hcf : db.createFault with
      | some f =>
        simp only [UserController.create, if_pos hv, hcf]
        rfl
      | none =>
        simp only [UserController.create, if_pos hv, hcf]
        rfl
    · simp only [UserController.create, if_neg hv]
      rfl
  · cases hdf : db.findFault with
    | some f =>
      simp only [UserController.update, hdf]
      rfl
    | none =>
      cases hfu : findUser db.users uid with
      | none =>
        simp only [UserController.update, hdf, hfu]
        rfl
      | some user =>
        by_cases hv : (updateValidation p).1 = []
        · cases hup : db.updateFault with
          | some f =>
            simp only [UserController.update, hdf, hfu, if_pos hv, hup]
            rfl
          | none =>
            cases hre : findUser (storeUpdateUsers db.users uid (updatedUser db user p)) uid with
            | some fresh =>
              simp only [UserController.update, hdf, hfu, if_pos hv, hup, hre]
              rfl
            | none =>
              simp only [UserController.update, hdf, hfu, if_pos hv, hup, hre]
              rfl
        · simp only [UserController.update, hdf, hfu, if_neg hv]
          rfl
  · cases hdf : db.findFault with
    | some f =>
      simp only [UserController.destroy, hdf]
      rfl
    | none =>
      cases hfu : findUser db.users uid with
      | none =>
        simp only [UserController.destroy, hdf, hfu]
        rfl
      | some user =>
        cases hds : db.destroyFault with
        | some f =>
          simp only [UserController.destroy, hdf, hfu, hds]
          rfl
        | none =>
          simp only [UserController.destroy, hdf, hfu, hds]
          rfl

/-- C5: for every create payload missing one or more of the required fields,
the 422 validation response contains a failure entry for every missing
required field, not only the first one discovered. -/
theorem create_missing_required_reported (env : Env) (db : DBState) (p : Payload)
    (hmiss : p.screenName = none ∨ p.email = none ∨ p.password = none) :
    (UserController.create env db p).1.status = 422 ∧
    (p.screenName = none → ∃ e ∈ responseErrors (UserController.create env db p).1,
      e.source = some "screenName") ∧
    (p.email = none → ∃ e ∈ responseErrors (UserController.create env db p).1,
      e.source = some "email") ∧
    (p.password = none → ∃ e ∈ responseErrors (UserController.create env db p).1,
      e.source = some "password") := by
  have hmemS : p.screenName = none →
      ({ field := "screenName", message := checkMessage Check.exist } : FieldFailure) ∈
        (createValidation p).1 := by
    intro h
    simp [createValidation, h, runFullField_exist_absent, List.mem_append]
  have hmemE : p.email = none →
      ({ field := "email", message := checkMessage Check.exist } : FieldFailure) ∈
        (createValidation p).1 := by
    intro h
    simp [createValidation, h, runFullField_exist_absent, List.mem_append]
  have hmemP : p.password = none →
      ({ field := "password", message := checkMessage Check.exist } : FieldFailure) ∈
        (createValidation p).1 := by
    intro h
    simp [createValidation, h, runFullField_exist_absent, List.mem_append]
  have hne : (createValidation p).1 ≠ [] := by
    rcases hmiss with h | h | h
    · exact List.ne_nil_of_mem (hmemS h)
    · exact List.ne_nil_of_mem (hmemE h)
    · exact List.ne_nil_of_mem (hmemP h)
  have hresp : UserController.create env db p =
      ({ status := 422,
         body := ResponseBody.errorsDoc (validationError (createValidation p).1) }, db, []) := by
    unfold UserController.create
    rw [if_neg hne]
  refine ⟨by rw [hresp], ?_, ?_, ?_⟩
  · intro h
    rw [hresp]
    exact ⟨_, mem_validationError (hmemS h), rfl⟩
  · intro h
    rw [hresp]
    exact ⟨_, mem_validationError (hmemE h), rfl⟩
  · intro h
    rw [hresp]
    exact ⟨_, mem_validationError (hmemP h), rfl⟩

/-- C5 witness: the empty create payload is rejected with a 422. -/
theorem create_missing_required_reported_witness :
    (UserController.create envW dbW pEmptyW).1.status = 422 :=
  (create_missing_required_reported envW dbW pEmptyW (Or.inl rfl)).1

/-- Every failure reported by the partial schema names one of its four fields,
and only fields that are present in the payload can fail. -/
theorem updateValidation_fields (p : Payload) :
    ∀ e ∈ (updateValidation p).1,
      (e.field = "name" ∧ p.name ≠ none) ∨
      (e.field = "screenName" ∧ p.screenName ≠ none) ∨
      (e.field = "email" ∧ p.email ≠ none) ∨
      (e.field = "password" ∧ p.password ≠ none) := by
  have hpresent : ∀ (g : String) (v : Option String) (cs : List Check),
      ∀ e ∈ (runPartialField g v cs).1, e.field = g ∧ v ≠ none := by
    intro g v cs e he
    cases v with
    | none => rw [runPartialField_absent] at he; cases he
    | some s =>
      refine ⟨runPartialField_field_eq g (some s) cs e he, by simp⟩
  intro e he
  have heq : (updateValidation p).1 =
      ((runPartialField "name" p.name [Check.notEmpty]).1 ++
        (runPartialField "screenName" p.screenName [Check.notEmpty]).1 ++
        (runPartialField "email" p.email
          [Check.notEmpty, Check.isEmail, Check.normEmail]).1 ++
        (runPartialField "password" p.password
          [Check.notEmpty, Check.strongPassword]).1) := rfl
  rw [heq, List.mem_append, List.mem_append, List.mem_append] at he
  rcases he with ((h1 | h1) | h1) | h1
  · exact Or.inl (hpresent _ _ _ e h1)
  · exact Or.inr (Or.inl (hpresent _ _ _ e h1))
  · exact Or.inr (Or.inr (Or.inl (hpresent _ _ _ e h1)))
  · exact Or.inr (Or.inr (Or.inr (hpresent _ _ _ e h1)))

/-- C6: for every update payload that omits an optional field, validation
reports no failure for that omitted field and the sanitized payload passed to
the store write (`matchedData`, i.e. `(updateValidation p).2`) does not
contain that field. -/
theorem update_omitted_optional_vacuous (p : Payload) :
    (p.name = none → (∀ e ∈ (updateValidation p).1, e.field ≠ "name") ∧
      (updateValidation p).2.name = none) ∧
    (p.screenName = none → (∀ e ∈ (updateValidation p).1, e.field ≠ "screenName") ∧
      (updateValidation p).2.screenName = none) ∧
    (p.email = none → (∀ e ∈ (updateValidation p).1, e.field ≠ "email") ∧
      (updateValidation p).2.email = none) ∧
    (p.password = none → (∀ e ∈ (updateValidation p).1, e.field ≠ "password") ∧
      (updateValidation p).2.password = none) := by
  refine ⟨fun h => ⟨?_, ?_⟩, fun h => ⟨?_, ?_⟩, fun h => ⟨?_, ?_⟩, fun h => ⟨?_, ?_⟩⟩
  · intro e he hcon
    rcases updateValidation_fields p e he with ⟨hf, hv⟩ | ⟨hf, hv⟩ | ⟨hf, hv⟩ | ⟨hf, hv⟩
    · exact hv h
    · rw [hcon] at hf; exact absurd hf (by decide)
    · rw [hcon] at hf; exact absurd hf (by decide)
    · rw [hcon] at hf; exact absurd hf (by decide)
  · simp [updateValidation, h, runPartialField_absent]
  · intro e he hcon
    rcases updateValidation_fields p e he with ⟨hf, hv⟩ | ⟨hf, hv⟩ | ⟨hf, hv⟩ | ⟨hf, hv⟩
    · rw [hcon] at hf; exact absurd hf (by decide)
    · exact hv h
    · rw [hcon] at hf; exact absurd hf (by decide)
    · rw [hcon] at hf; exact absurd hf (by decide)
  · simp [updateValidation, h, runPartialField_absent]
  · intro e he hcon
    rcases updateValidation_fields p e he with ⟨hf, hv⟩ | ⟨hf, hv⟩ | ⟨hf, hv⟩ | ⟨hf, hv⟩
    · rw [hcon] at hf; exact absurd hf (by decide)
    · rw [hcon] at hf; exact absurd hf (by decide)
    · exact hv h
    · rw [hcon] at hf; exact absurd hf (by decide)
  · simp [updateValidation, h, runPartialField_absent]
  · intro e he hcon
    rcases updateValidation_fields p e he with ⟨hf, hv⟩ | ⟨hf, hv⟩ | ⟨hf, hv⟩ | ⟨hf, hv⟩
    · rw [hcon] at hf; exact absurd hf (by decide)
    · rw [hcon] at hf; exact absurd hf (by decide)
    · rw [hcon] at hf; exact absurd hf (by decide)
    · exact hv h
  · simp [updateValidation, h, runPartialField_absent]

/-- C6 witness: a partial body carrying only screenName leaves name out of the
sanitized payload. -/
theorem update_omitted_optional_vacuous_witness :
    (updateValidation pPartialW).2.name = none :=
  ((update_omitted_optional_vacuous pPartialW).1 rfl).2

/-- C7: for every update or delete request whose id has no stored resource,
the response is a 404 with a single error entry, the store is unchanged, and
no store write is attempted. -/
theorem missing_resource_404_no_write (db : DBState) (uid : String) (p : Payload)
    (hff : db.findFault = none) (hmiss : findUser db.users uid = none) :
    (UserController.update db uid p).1.status = 404 ∧
    responseErrors (UserController.update db uid p).1 = [resourceNotFound] ∧
    (UserController.update db uid p).2.1 = db ∧
    (UserController.update db uid p).2.2.filter isWriteEvent = [] ∧
    (UserController.destroy db uid).1.status = 404 ∧
    responseErrors (UserController.destroy db uid).1 = [resourceNotFound] ∧
    (UserController.destroy db uid).2.1 = db ∧
    (UserController.destroy db uid).2.2.filter isWriteEvent = [] := by
  have hu : UserController.update db uid p =
      ({ status := 404, body := ResponseBody.errorsDoc [resourceNotFound] }, db,
        [StoreEvent.findByPk uid]) := by
    unfold UserController.update
    rw [hff, hmiss]
  have hd : UserController.destroy db uid =
      ({ status := 404, body := ResponseBody.errorsDoc [resourceNotFound] }, db,
        [StoreEvent.findByPk uid]) := by
    unfold UserController.destroy
    rw [hff, hmiss]
  rw [hu, hd]
  exact ⟨rfl, rfl, rfl, rfl, rfl, rfl, rfl, rfl⟩

/-- C7 witness: updating a missing id against the empty store answers 404. -/
theorem missing_resource_404_no_write_witness :
    (UserController.update dbW "nope" pEmptyW).1.status = 404 :=
  (missing_resource_404_no_write dbW "nope" pEmptyW rfl rfl).1

/-- C8: for every successful update, the success document's data is built from
the resource state re-read from the store after the mutation commits (the
reloaded row found in the post-mutation table), not from the in-memory
submitted values. -/
theorem update_response_from_reload (db : DBState) (uid : String) (p : Payload)
    (u : UserRecord) (hff : db.findFault = none) (hfind : findUser db.users uid = some u)
    (hval : (updateValidation p).1 = []) (huf : db.updateFault = none) :
    ∃ fresh, findUser (UserController.update db uid p).2.1.users uid = some fresh ∧
      (UserController.update db uid p).1.status = 200 ∧
      (UserController.update db uid p).1.body = ResponseBody.dataOne fresh.convert := by
  have huid : u.id = uid := by
    have h := List.find?_some hfind
    simpa using h
  have hid : (updatedUser db u p).id = uid := by
    unfold updatedUser
    exact huid
  have hre : findUser (storeUpdateUsers db.users uid (updatedUser db u p)) uid =
      some (updatedUser db u p) := findUser_storeUpdate _ _ _ _ hfind hid
  have hu : UserController.update db uid p =
      ({ status := 200, body := ResponseBody.dataOne (updatedUser db u p).convert },
        { db with users := storeUpdateUsers db.users uid (updatedUser db u p) },
        [StoreEvent.findByPk uid, StoreEvent.txBegin, StoreEvent.updateRow uid,
          StoreEvent.txEnd, StoreEvent.reloadRow uid]) := by
    unfold UserController.update
    simp only [hff, hfind, if_pos hval, huf, hre]
  refine ⟨updatedUser db u p, ?_, ?_, ?_⟩
  · rw [hu]; exact hre
  · rw [hu]
  · rw [hu]

/-- C8 witness: a successful concrete update answers 200. -/
theorem update_response_from_reload_witness :
    (UserController.update dbUW "1" pEmptyW).1.status = 200 := by
  obtain ⟨fresh, hf, h200, hb⟩ :=
    update_response_from_reload dbUW "1" pEmptyW uW rfl rfl rfl rfl
  exact h200

/-- C10: for every successful create, the persisted resource's name field is
the server-generated 15-character alphanumeric value and never comes from the
client payload — any two accepted payloads yield the same persisted name. -/
theorem create_name_server_generated (env : Env) (db : DBState) (p : Payload)
    (hval : (createValidation p).1 = []) (hcf : db.createFault = none) :
    ∃ u, (UserController.create env db p).2.1.users = db.users ++ [u] ∧
      u.name = fakerAlphaNumeric env.seed 15 ∧
      u.name.length = 15 ∧
      (∀ c ∈ u.name.toList, c.isAlphanum = true) ∧
      ∀ q : Payload, (createValidation q).1 = [] →
        ∃ w, (UserController.create env db q).2.1.users = db.users ++ [w] ∧
          w.name = u.name := by
  have hc : ∀ r : Payload, (createValidation r).1 = [] →
      (UserController.create env db r).2.1.users = db.users ++ [createdUser env db r] := by
    intro r hr
    unfold UserController.create
    rw [if_pos hr, hcf]
  refine ⟨createdUser env db p, hc p hval, rfl, fakerAlphaNumeric_length _ _, ?_, ?_⟩
  · intro c hcm
    have hcm2 : c ∈ (List.range 15).map fun i => alphaNumChar (env.seed + 31 * i) := hcm
    obtain ⟨i, _, rfl⟩ := List.mem_map.mp hcm2
    exact alphaNumChar_isAlphanum _
  · intro q hq
    exact ⟨createdUser env db q, hc q hq, rfl⟩

/-- C10 witness: a concrete accepted create grows the table by one row. -/
theorem create_name_server_generated_witness :
    (UserController.create envW dbW pValidW).2.1.users.length = dbW.users.length + 1 := by
  obtain ⟨u, husers, -, -, -, -⟩ := create_name_server_generated envW dbW pValidW rfl rfl
  rw [husers]
  simp
